import Mathlib

/-!
Verification of the Velvet Vogue storefront (Flask/SQLAlchemy) against its
specification.  The development shallowly embeds the relevant parts of
`models.py`, `email_service.py` and `app.py`:

* timestamps (`datetime.utcnow()` and `timedelta`) are modelled as natural
  numbers counting minutes, so `timedelta(minutes=m)` is `+ m` and
  `timedelta(days=d)` is `+ d * 1440`;
* the SQLAlchemy session is modelled by explicit state passing: a handler
  receives the committed datastore and returns the (response, datastore)
  pair.  Uncommitted work (`db.session.add`/`flush` without `commit`) lives
  only in local values of the embedding, mirroring the fact that
  Flask-SQLAlchemy rolls the session back at request teardown when a
  handler returns without committing;
* SMTP transport is a parameter: an outcome value (for the one-shot send)
  or a function from message fields to the `(ok, detail)` pair returned by
  `_smtp_send` (for the sweep), since `_smtp_send` catches every exception
  and returns such a pair in all cases.
-/

namespace VelvetVogue

/-- A row of the `failed_emails` table (`models.py`, class `FailedEmail`).
Timestamps are minutes as `Nat`. -/
structure FailedEmail where
  id : Nat
  email_type : String
  recipient : String
  subject : String
  html_content : String
  order_id : Option Nat
  attempts : Nat
  max_attempts : Nat
  last_attempt : Nat
  next_attempt : Nat
  error_message : String
  status : String
  created_at : Nat
deriving Repr, DecidableEq

/-- The `failed_emails` table together with the id sequence that the
database uses for newly inserted rows. -/
structure EmailDB where
  rows : List FailedEmail
  nextId : Nat
deriving Repr, DecidableEq

/-- Replace the first element satisfying `p` by its image under `f`
(the list analogue of mutating the single row returned by `.first()`). -/
def updateFirst (p : α → Bool) (f : α → α) : List α → List α
  | [] => []
  | x :: xs => if p x then f x :: xs else x :: updateFirst p f xs

/-- The filter used by `_queue_email` to look up an already queued email:
`FailedEmail.query.filter_by(recipient=.., email_type=.., order_id=..,
status='pending')`. -/
def queueMatch (to_email email_type : String) (order_id : Option Nat)
    (e : FailedEmail) : Bool :=
  e.recipient = to_email && e.email_type = email_type &&
    e.order_id = order_id && e.status = "pending"

/-- The in-place update `_queue_email` performs on an existing pending row:
`attempts += 1`, `last_attempt = now`, `error_message = msg`,
`next_attempt = now + 5 * 2 ** attempts` minutes (the exponent uses the
already incremented counter, as in the source). -/
def bumpExisting (now : Nat) (error_msg : String) (e : FailedEmail) :
    FailedEmail :=
  { e with
      attempts := e.attempts + 1
      last_attempt := now
      error_message := error_msg
      next_attempt := now + 5 * 2 ^ (e.attempts + 1) }

/-- The fresh row `_queue_email` inserts when no pending duplicate exists:
`attempts=1`, `status='pending'`, `next_attempt = now + 5` minutes.
`max_attempts` takes the column default 5 from `models.py`. -/
def freshEntry (id now : Nat) (to_email subject html_content email_type : String)
    (order_id : Option Nat) (error_msg : String) : FailedEmail :=
  { id := id
    email_type := email_type
    recipient := to_email
    subject := subject
    html_content := html_content
    order_id := order_id
    attempts := 1
    max_attempts := 5
    last_attempt := now
    next_attempt := now + 5
    error_message := error_msg
    status := "pending"
    created_at := now }

/-- `EmailService._queue_email`: deduplicate against an existing
(recipient, type, order, status=pending) row, updating it in place, or
insert a fresh row.  Returns the `(False, detail)` pair and the new table
state. -/
def queueEmail (db : EmailDB) (now : Nat)
    (to_email subject html_content email_type : String)
    (order_id : Option Nat) (error_msg : String) :
    (Bool × String) × EmailDB :=
  match db.rows.find? (queueMatch to_email email_type order_id) with
  | some _ =>
      ((false, "Email queued for retry. Will attempt again later. (Error: "
          ++ error_msg ++ ")"),
        { db with
            rows := updateFirst (queueMatch to_email email_type order_id)
              (bumpExisting now error_msg) db.rows })
  | none =>
      ((false, "Email queued for retry. Will attempt again later. (Error: "
          ++ error_msg ++ ")"),
        { rows := db.rows ++
            [freshEntry db.nextId now to_email subject html_content
              email_type order_id error_msg]
          nextId := db.nextId + 1 })

/-- The possible outcomes of one SMTP conversation, matching the exception
arms of `_smtp_send`. -/
inductive SmtpOutcome where
  | delivered
  | authError (msg : String)
  | smtpError (msg : String)
  | connRefused
  | timeout
  | otherError (msg : String)
deriving Repr, DecidableEq

/-- `EmailService._smtp_send`: every transport failure is caught and
rendered as a `(False, message)` pair; success yields `(True, ...)`. -/
def smtpSend (server : String) (port : Nat) (o : SmtpOutcome) :
    Bool × String :=
  match o with
  | .delivered => (true, "Sent successfully")
  | .authError m =>
      (false, "SMTP Authentication failed - check email credentials: " ++ m)
  | .smtpError m => (false, "SMTP Error: " ++ m)
  | .connRefused =>
      (false, "Connection refused to " ++ server ++ ":" ++ toString port)
  | .timeout => (false, "Connection timeout - server may be down")
  | .otherError m => (false, "Unexpected error: " ++ m)

/-- SMTP configuration read from the environment in `EmailService.__init__`. -/
structure EmailConfig where
  smtp_server : String
  smtp_port : Nat
deriving Repr, DecidableEq

/-- `EmailService.send_email`: try the immediate send; on success return
`(True, "Email sent successfully")` leaving the queue alone, otherwise hand
the failure (with the detail produced by `_smtp_send`) to `_queue_email`. -/
def sendEmail (cfg : EmailConfig) (transport : SmtpOutcome) (db : EmailDB)
    (now : Nat) (to_email subject html_content email_type : String)
    (order_id : Option Nat) : (Bool × String) × EmailDB :=
  match smtpSend cfg.smtp_server cfg.smtp_port transport with
  | (true, _) => ((true, "Email sent successfully"), db)
  | (false, message) =>
      queueEmail db now to_email subject html_content email_type order_id
        message

/-- The due-set filter of `retry_failed_emails`:
`status == 'pending' AND attempts < max_attempts AND next_attempt <= now`. -/
def isDue (now : Nat) (e : FailedEmail) : Bool :=
  e.status = "pending" && e.attempts < e.max_attempts &&
    e.next_attempt ≤ now

/-- One iteration of the sweep loop of `retry_failed_emails` on a due row:
increment `attempts`, stamp `last_attempt`, mark `sending`, attempt the
send; on success the row is deleted (`none`), on failure the row goes back
to `pending` with the new error message, becoming `failed` terminally when
the incremented counter has reached `max_attempts`, and otherwise
rescheduled `5 * 5 ** (attempts - 1)` minutes ahead. -/
def retryStep (now : Nat) (send : String → String → String → Bool × String)
    (e : FailedEmail) : Option FailedEmail :=
  let e1 := { e with
      attempts := e.attempts + 1
      last_attempt := now
      status := "sending" }
  match send e1.recipient e1.subject e1.html_content with
  | (true, _) => none
  | (false, message) =>
      let e2 := { e1 with status := "pending", error_message := message }
      if e2.max_attempts ≤ e2.attempts then
        some { e2 with status := "failed" }
      else
        some { e2 with next_attempt := now + 5 * 5 ^ (e2.attempts - 1) }

/-- The counter dictionary returned by `retry_failed_emails`. -/
structure RetryStats where
  processed : Nat
  sent : Nat
  failed : Nat
  permanent_failures : Nat
  skipped : Nat
deriving Repr, DecidableEq

/-- `EmailService.retry_failed_emails(max_retries=5)`: select the due set,
process each due row with `retryStep` (rows not in the due set are left in
place), and accumulate counters.  The `max_retries` parameter is accepted
but, exactly as in the source, never read: only each row's stored
`max_attempts` governs the cutoff. -/
def retryFailedEmails (max_retries : Nat) (now : Nat)
    (send : String → String → String → Bool × String) (db : EmailDB) :
    RetryStats × EmailDB :=
  let pending := db.rows.filter (isDue now)
  let stats := pending.foldl
    (fun s e =>
      let s1 : RetryStats := { s with processed := s.processed + 1 }
      match retryStep now send e with
      | none => { s1 with sent := s1.sent + 1 }
      | some e2 =>
          if e2.status = "failed" then
            { s1 with permanent_failures := s1.permanent_failures + 1 }
          else
            { s1 with failed := s1.failed + 1 })
    ⟨0, 0, 0, 0, 0⟩
  (stats,
    { db with
        rows := db.rows.filterMap
          (fun e => if isDue now e then retryStep now send e else some e) })

/-- `EmailService.clear_sent_emails(days=7)`: delete rows with
`status == 'sent'` older than the cutoff and return how many were
deleted. -/
def clearSentEmails (days : Nat) (now : Nat) (db : EmailDB) :
    Nat × EmailDB :=
  let cutoff := now - days * 1440
  ((db.rows.filter (fun e => e.status = "sent" && e.created_at < cutoff)).length,
    { db with
        rows := db.rows.filter
          (fun e => !(e.status = "sent" && e.created_at < cutoff)) })

/-- A row of the `products` table (`models.py`, class `Product`).  The
JSON `sizes` column is an association list preserving insertion order;
quantities are `Int` so that non-negativity is a provable property, not a
typing artefact.  Prices (`Numeric(10,2)`) are integers in the smallest
currency unit. -/
structure Product where
  id : Nat
  name : String
  price : Int
  sizes : List (String × Int)
  stock : Int
  sold_count : Int
deriving Repr, DecidableEq

/-- `size in self.sizes` / `self.sizes[size]` on the JSON dict. -/
def sizesLookup (sizes : List (String × Int)) (size : String) : Option Int :=
  (sizes.find? (fun kv => kv.1 = size)).map (fun kv => kv.2)

/-- `sum(sizes.values())`. -/
def sizesSum (sizes : List (String × Int)) : Int :=
  (sizes.map (fun kv => kv.2)).sum

/-- `Product.check_size_availability(size, quantity)`: fail when the size
is absent (or the dict empty), succeed when the stored count covers the
request. -/
def checkSizeAvailability (p : Product) (size : String) (quantity : Int) :
    Bool × String :=
  match sizesLookup p.sizes size with
  | none => (false, "Size not available")
  | some v =>
      if quantity ≤ v then (true, "Available")
      else (false, "Only " ++ toString v ++ " available in size " ++ size)

/-- `sizes[item['size']] -= item['quantity']` on the (unique-keyed) JSON
dict: subtract from the first binding of the key. -/
def sizesDecrement (sizes : List (String × Int)) (size : String) (q : Int) :
    List (String × Int) :=
  updateFirst (fun kv => kv.1 = size) (fun kv => (kv.1, kv.2 - q)) sizes

/-- The stock update block of `api_checkout` for a paid order: decrement
the size, recompute `stock` as the new sum, add the quantity to
`sold_count`. -/
def productAfterSale (p : Product) (size : String) (q : Int) : Product :=
  let sizes := sizesDecrement p.sizes size q
  { p with
      sizes := sizes
      stock := sizesSum sizes
      sold_count := p.sold_count + q }

/-- A row of the `orders` table (`models.py`, class `Order`), restricted to
the columns `api_checkout` writes. -/
structure Order where
  id : Nat
  customer_name : String
  customer_email : String
  customer_phone : String
  shipping_address : String
  subtotal : Int
  delivery_fee : Int
  total_amount : Int
  payment_method : String
  payment_status : String
  transaction_ref : Option String
deriving Repr, DecidableEq

/-- `str.zfill(width)` for non-negative decimal strings: left-pad with
zeroes up to `width`. -/
def zfill (width : Nat) (s : String) : String :=
  String.mk (List.replicate (width - s.length) '0' ++ s.data)

/-- The `Order.order_number` property: `f"VV{str(self.id).zfill(4)}"`,
recomputed from the id (the structure holds no order-number column). -/
def Order.order_number (o : Order) : String :=
  "VV" ++ zfill 4 (toString o.id)

/-- A row of the `order_items` table (`models.py`, class `OrderItem`). -/
structure OrderItem where
  id : Nat
  order_id : Nat
  product_id : Nat
  size : String
  quantity : Int
  price : Int
deriving Repr, DecidableEq

/-- The `customer` block of the checkout request body. -/
structure Customer where
  name : String
  email : String
  phone : String
  address : String
deriving Repr, DecidableEq

/-- One element of the request's `items` list.  `product_id` and `alt_id`
model `item.get('product_id')` and `item.get('id')`. -/
structure CheckoutItem where
  product_id : Option Nat
  alt_id : Option Nat
  size : String
  quantity : Int
  price : Int
deriving Repr, DecidableEq

/-- `product_id = item.get('product_id') or item.get('id')` followed by
`if not product_id`: Python treats both `None` and `0` as falsy, so a
resolved id of 0 is reported as missing. -/
def CheckoutItem.resolvedId (it : CheckoutItem) : Option Nat :=
  let pid := match it.product_id with
    | some 0 => it.alt_id
    | none => it.alt_id
    | some n => some n
  match pid with
  | some 0 => none
  | x => x

/-- The JSON body of `POST /api/checkout`; `none` marks an absent key. -/
structure CheckoutRequest where
  customer : Option Customer
  items : Option (List CheckoutItem)
  subtotal : Option Int
  delivery_fee : Option Int
  total : Option Int
  payment_method : Option String
  payment_status : Option String
  payment_reference : Option String
deriving Repr, DecidableEq

/-- A JSON response: `{'success': True, 'order_number': .., 'message': ..}`
or `{'success': False, 'error': ..}` with an HTTP status code. -/
inductive ApiResponse where
  | ok (order_number : String) (message : String)
  | err (status : Nat) (error : String)
deriving Repr, DecidableEq

def ApiResponse.isErr : ApiResponse → Bool
  | .ok _ _ => false
  | .err _ _ => true

/-- The committed datastore visible to `api_checkout`: the tables it reads
and writes plus the id sequences. -/
structure Store where
  products : List Product
  orders : List Order
  order_items : List OrderItem
  next_order_id : Nat
  next_order_item_id : Nat
  email_db : EmailDB
deriving Repr, DecidableEq

/-- `db.session.get(Product, pid)` against the session's product state. -/
def findProduct (products : List Product) (pid : Nat) : Option Product :=
  products.find? (fun p => p.id = pid)

/-- The per-item loop of `api_checkout`, threading the session state: for
each item resolve the product id, load the product from the session, run
the availability check, record an `OrderItem`, and — when the request says
the payment is already made — apply the stock update.  Any failure aborts
the whole request with the handler's error message. -/
def checkoutLoop (paid : Bool) (orderId : Nat) :
    List CheckoutItem → Nat → List Product → List OrderItem →
    Except String (List Product × List OrderItem × Nat)
  | [], nextItemId, products, acc => Except.ok (products, acc, nextItemId)
  | it :: rest, nextItemId, products, acc =>
    match it.resolvedId with
    | none => Except.error "Item missing product_id"
    | some pid =>
      match findProduct products pid with
      | none => Except.error ("Product not found: " ++ toString pid)
      | some product =>
        match checkSizeAvailability product it.size it.quantity with
        | (false, msg) => Except.error msg
        | (true, _) =>
          let oi : OrderItem :=
            { id := nextItemId
              order_id := orderId
              product_id := pid
              size := it.size
              quantity := it.quantity
              price := it.price }
          let products1 :=
            if paid then
              updateFirst (fun p => p.id = pid)
                (fun p => productAfterSale p it.size it.quantity) products
            else products
          checkoutLoop paid orderId rest (nextItemId + 1) products1
            (acc ++ [oi])

/-- The subject line of the customer confirmation email
(`send_order_confirmation`). -/
def orderConfirmationSubject (o : Order) : String :=
  "Your Velvet Vogue Order Confirmation #" ++ o.order_number

/-- The subject line of the admin notification email
(`send_admin_notification`); the currency formatting of the template is
abbreviated to `toString`. -/
def adminNotificationSubject (o : Order) : String :=
  "NEW ORDER #" ++ o.order_number ++ " - " ++ toString o.total_amount

/-- The rendered HTML bodies (`_build_order_email` / `_build_admin_email`)
are large static templates interpolating order fields; no claim inspects
their text, so they are abbreviated to a tagged rendering of the order
number. -/
def buildOrderEmail (o : Order) : String :=
  "order_confirmation_html:" ++ o.order_number

def buildAdminEmail (o : Order) : String :=
  "admin_notification_html:" ++ o.order_number

/-- The admin address hard-coded in `EmailService.__init__`. -/
def adminEmail : String := "blessedsubarashi22@gmail.com"

/-- ASCII lower-casing of one character, as `str.lower()` does on the
ASCII range used by the embedding. -/
def charToLower (c : Char) : Char :=
  if 'A' ≤ c ∧ c ≤ 'Z' then Char.ofNat (c.toNat + 32) else c

/-- `data['customer']['email'].lower()`. -/
def strToLower (s : String) : String :=
  String.mk (s.data.map charToLower)

/-- The `Order(...)` constructor call of `api_checkout`: customer snapshot
(email lower-cased), client-echoed money fields, `payment_status`
defaulting to `"pending"`, and the id drawn from the orders sequence at
flush time. -/
def checkoutOrder (c : Customer) (subtotal delivery_fee total : Int)
    (payment_method : String)
    (payment_status payment_reference : Option String) (oid : Nat) :
    Order :=
  { id := oid
    customer_name := c.name
    customer_email := strToLower c.email
    customer_phone := c.phone
    shipping_address := c.address
    subtotal := subtotal
    delivery_fee := delivery_fee
    total_amount := total
    payment_method := payment_method
    payment_status := payment_status.getD "pending"
    transaction_ref := payment_reference }

/-- `POST /api/checkout` (`app.py`, `api_checkout`).  The transport
outcomes of the two post-commit notification emails are the parameters
`t1` (customer confirmation) and `t2` (admin notification); their failures
are swallowed and at most enqueue retries.  Every early `return` before
`db.session.commit()` leaves the committed datastore untouched (the
session is rolled back at request teardown). -/
def api_checkout (req : CheckoutRequest) (now : Nat) (cfg : EmailConfig)
    (t1 t2 : SmtpOutcome) (store : Store) : ApiResponse × Store :=
  match req.customer with
  | none => (.err 400 "Missing field: customer", store)
  | some customer =>
  match req.items with
  | none => (.err 400 "Missing field: items", store)
  | some items =>
  match req.subtotal with
  | none => (.err 400 "Missing field: subtotal", store)
  | some subtotal =>
  match req.delivery_fee with
  | none => (.err 400 "Missing field: delivery_fee", store)
  | some delivery_fee =>
  match req.total with
  | none => (.err 400 "Missing field: total", store)
  | some total =>
  match req.payment_method with
  | none => (.err 400 "Missing field: payment_method", store)
  | some payment_method =>
  if items.isEmpty then (.err 400 "No items in order", store)
  else
    let order : Order :=
      checkoutOrder customer subtotal delivery_fee total payment_method
        req.payment_status req.payment_reference store.next_order_id
    match checkoutLoop (req.payment_status.getD "pending" = "paid")
        store.next_order_id items store.next_order_item_id
        store.products [] with
    | .error msg => (.err 400 msg, store)
    | .ok (products1, newItems, nextItemId1) =>
        let committed : Store :=
          { store with
              products := products1
              orders := store.orders ++ [order]
              order_items := store.order_items ++ newItems
              next_order_id := store.next_order_id + 1
              next_order_item_id := nextItemId1 }
        let edb1 :=
          (sendEmail cfg t1 committed.email_db now order.customer_email
            (orderConfirmationSubject order) (buildOrderEmail order)
            "order_confirmation" (some order.id)).2
        let edb2 :=
          (sendEmail cfg t2 edb1 now adminEmail
            (adminNotificationSubject order) (buildAdminEmail order)
            "admin_notification" (some order.id)).2
        (.ok order.order_number "Order created successfully",
          { committed with email_db := edb2 })

/-- One entry of the session cart dict built by `add_to_cart`. -/
structure SessionCartItem where
  product_id : Nat
  name : String
  price : Int
  size : String
  quantity : Int
  image : Option String
  max_stock : Int
deriving Repr, DecidableEq

/-- The session cart: a dict from composite `"productid_size"` keys to
entries, as an insertion-ordered association list (dict keys are unique). -/
def SessionCart := List (String × SessionCartItem)

/-- `calculate_cart_total(cart)`: `sum(item['price'] * item['quantity'])`. -/
def calculateCartTotal (cart : SessionCart) : Int :=
  (cart.map (fun kv => kv.2.price * kv.2.quantity)).sum

/-- `sum(item['quantity'] for item in cart.values())`. -/
def cartItemCount (cart : SessionCart) : Int :=
  (cart.map (fun kv => kv.2.quantity)).sum

/-- `del cart[cart_key]` on the unique-keyed dict: drop the first binding
of the key. -/
def eraseKey (key : String) : SessionCart → SessionCart
  | [] => []
  | kv :: rest => if kv.1 = key then rest else kv :: eraseKey key rest

/-- The JSON response of `POST /api/cart/remove`. -/
inductive CartRemoveResponse where
  | ok (message : String) (cart_count : Int) (cart_total : Int)
  | err (status : Nat) (error : String)
deriving Repr, DecidableEq

/-- `remove_from_cart` (`app.py`): `data.get('cart_key')` may be absent
(`none`); a present key is deleted and fresh totals are returned, an
absent key yields the 404 error without writing the session back. -/
def remove_from_cart (cart_key : Option String) (cart : SessionCart) :
    CartRemoveResponse × SessionCart :=
  match cart_key with
  | none => (.err 404 "Item not in cart", cart)
  | some key =>
    match cart.find? (fun kv => kv.1 = key) with
    | some _ =>
        let cart1 := eraseKey key cart
        (.ok "Item removed" (cartItemCount cart1) (calculateCartTotal cart1),
          cart1)
    | none => (.err 404 "Item not in cart", cart)

/-- The queue states reachable from an empty `failed_emails` table through
the operations of `EmailService`. -/
inductive EmailDBReachable : EmailDB → Prop where
  | init (n : Nat) : EmailDBReachable ⟨[], n⟩
  | enqueue (db : EmailDB) (now : Nat) (a b c d : String) (oid : Option Nat)
      (msg : String) : EmailDBReachable db →
      EmailDBReachable (queueEmail db now a b c d oid msg).2
  | dispatch (cfg : EmailConfig) (t : SmtpOutcome) (db : EmailDB) (now : Nat)
      (a b c d : String) (oid : Option Nat) : EmailDBReachable db →
      EmailDBReachable (sendEmail cfg t db now a b c d oid).2
  | sweep (v now : Nat) (f : String → String → String → Bool × String)
      (db : EmailDB) : EmailDBReachable db →
      EmailDBReachable (retryFailedEmails v now f db).2
  | purge (days now : Nat) (db : EmailDB) : EmailDBReachable db →
      EmailDBReachable (clearSentEmails days now db).2

/-- `a` is `b` after zero or more in-place decrements of size counters:
same keys in the same order, each count at most the original. -/
def sizesShrink (a b : List (String × Int)) : Prop :=
  List.Forall₂ (fun x y => x.1 = y.1 ∧ x.2 ≤ y.2) a b

/-- `p'` is `p` after zero or more stock deductions: same id, shrunken
size map. -/
def prodShrink (p' p : Product) : Prop :=
  p'.id = p.id ∧ sizesShrink p'.sizes p.sizes

/-- Pointwise `prodShrink` over the product table. -/
def productsShrink (l' l : List Product) : Prop :=
  List.Forall₂ prodShrink l' l

/-- The per-item failure conditions of the checkout loop, stated against a
fixed product table `base`: unresolvable product id, id matching no
product, or failing availability check. -/
def itemFailsAgainst (base : List Product) (it : CheckoutItem) : Prop :=
  it.resolvedId = none ∨
    (∃ pid, it.resolvedId = some pid ∧ findProduct base pid = none) ∨
    (∃ pid p, it.resolvedId = some pid ∧ findProduct base pid = some p ∧
      (checkSizeAvailability p it.size it.quantity).1 = false)

/-! Concrete example values used by witnesses, counterexamples and the
scenario of the spec ("product 42, size M, quantity 3 against sizes
{M: 5}"). -/

/-- Product 42 of the spec scenario: sizes `{"M": 5}`. -/
def productScenario : Product := ⟨42, "Tee", 100, [("M", 5)], 5, 0⟩

/-- A datastore holding only product 42, with empty order tables. -/
def storeScenario : Store := ⟨[productScenario], [], [], 1, 1, ⟨[], 0⟩⟩

/-- The scenario checkout request: cart `{product 42, size "M",
quantity 3}`, `payment_status="paid"`. -/
def reqScenario : CheckoutRequest :=
  ⟨some ⟨"Ada", "Ada@example.com", "080", "12 Road"⟩,
    some [⟨some 42, none, "M", 3, 100⟩],
    some 300, some 2500, some 2800, some "card", some "paid", none⟩

/-- The default SMTP configuration of `EmailService.__init__`. -/
def cfgDefault : EmailConfig := ⟨"smtp.gmail.com", 587⟩

/-- The scenario request with the quantity pushed beyond stock (9 > 5), so
its single item fails the availability check. -/
def reqScenarioBad : CheckoutRequest :=
  { reqScenario with items := some [⟨some 42, none, "M", 9, 100⟩] }

/-- The order the scenario checkout creates (note the lower-cased customer
email). -/
def orderScenario : Order :=
  ⟨1, "Ada", "ada@example.com", "080", "12 Road", 300, 2500, 2800,
    "card", "paid", none⟩

/-- The datastore after the scenario checkout with both notification
emails delivered: product 42 decremented to `{"M": 2}` with `stock = 2`
and `sold_count = 3`, exactly one order holding exactly one order item. -/
def storeScenarioAfter : Store :=
  ⟨[⟨42, "Tee", 100, [("M", 2)], 2, 3⟩], [orderScenario],
    [⟨1, 1, 42, "M", 3, 100⟩], 2, 2, ⟨[], 0⟩⟩

/-- A pending queue entry one attempt short of its cap
(`attempts = 4`, `max_attempts = 5`). -/
def entryNearCap : FailedEmail :=
  ⟨7, "order_confirmation", "a@b", "s", "h", some 3, 4, 5, 0, 0, "",
    "pending", 0⟩

/-- A freshly queued pending entry (`attempts = 1`), due at time 10. -/
def entryFresh : FailedEmail :=
  ⟨9, "order_confirmation", "c@d", "s1", "h1", some 4, 1, 5, 0, 6, "",
    "pending", 0⟩

/-- `entryFresh` after one more failed sweep attempt at time 10. -/
def entryFreshRetried : FailedEmail :=
  ⟨9, "order_confirmation", "c@d", "s1", "h1", some 4, 2, 5, 10, 35, "x",
    "pending", 0⟩

/-- `entryNearCap` after the sweep's failed fifth attempt at time 10:
`attempts = max_attempts = 5`, terminally `failed`. -/
def entryNearCapFailed : FailedEmail :=
  ⟨7, "order_confirmation", "a@b", "s", "h", some 3, 5, 5, 10, 0, "x",
    "failed", 0⟩

/-- A transport stub that always fails with detail `"x"`. -/
def alwaysFail : String → String → String → Bool × String :=
  fun _ _ _ => (false, "x")

/-- Two orders sharing id 1 but nothing else, and an order with a
five-digit id. -/
def orderIdOne : Order := ⟨1, "A", "a@b", "1", "x", 0, 0, 0, "card", "paid", none⟩

def orderIdOneOther : Order := ⟨1, "B", "b@c", "2", "y", 5, 5, 5, "cash", "pending", some "r"⟩

def orderIdBig : Order := ⟨10000, "A", "a@b", "1", "x", 0, 0, 0, "card", "paid", none⟩

/-- A two-entry session cart. -/
def cartTwo : SessionCart :=
  [("42_M", ⟨42, "Tee", 100, "M", 2, none, 5⟩),
    ("42_L", ⟨42, "Tee", 100, "L", 1, none, 5⟩)]

/-! ### Generic lemmas about `updateFirst` -/

theorem updateFirst_length (p : α → Bool) (f : α → α) (l : List α) :
    (updateFirst p f l).length = l.length := by
  induction l with
  | nil => rfl
  | cons x xs ih =>
      by_cases h : p x <;> simp [updateFirst, h, ih]

theorem mem_updateFirst (p : α → Bool) (f : α → α) (l : List α) (x : α)
    (hx : x ∈ updateFirst p f l) :
    x ∈ l ∨ ∃ y, l.find? p = some y ∧ x = f y := by
  induction l with
  | nil => simp [updateFirst] at hx
  | cons a as ih =>
      by_cases h : p a
      · simp only [updateFirst, if_pos h] at hx
        rcases List.mem_cons.mp hx with hx | hx
        · exact Or.inr ⟨a, by simp [List.find?, h], hx⟩
        · exact Or.inl (List.mem_cons_of_mem a hx)
      · simp only [updateFirst, if_neg h] at hx
        rcases List.mem_cons.mp hx with hx | hx
        · exact Or.inl (hx ▸ List.mem_cons_self a as)
        · rcases ih hx with hx | ⟨y, hy, hxy⟩
          · exact Or.inl (List.mem_cons_of_mem a hx)
          · exact Or.inr ⟨y, by simp [List.find?, h, hy], hxy⟩

theorem any_updateFirst_of_find? (p : α → Bool) (f : α → α) (l : List α)
    (e : α) (h : l.find? p = some e) (hf : p (f e) = true) :
    (updateFirst p f l).any p = true := by
  induction l with
  | nil => simp at h
  | cons a as ih =>
      by_cases ha : p a
      · rw [List.find?_cons_of_pos _ ha, Option.some.injEq] at h
        subst h
        simp [updateFirst, ha, hf]
      · rw [List.find?_cons_of_neg _ (by simpa using ha)] at h
        simp [updateFirst, ha, List.any_cons, ih h]

theorem forall₂_updateFirst (R : α → α → Prop) (p : α → Bool) (f : α → α)
    (l : List α) (hrefl : ∀ x, R x x) (hf : ∀ x, R (f x) x) :
    List.Forall₂ R (updateFirst p f l) l := by
  have hrfl : ∀ m : List α, List.Forall₂ R m m := by
    intro m
    induction m with
    | nil => exact List.Forall₂.nil
    | cons b bs ihb => exact List.Forall₂.cons (hrefl b) ihb
  induction l with
  | nil => exact List.Forall₂.nil
  | cons a as ih =>
      by_cases h : p a
      · simpa [updateFirst, h] using List.Forall₂.cons (hf a) (hrfl as)
      · simpa [updateFirst, h] using List.Forall₂.cons (hrefl a) ih

/-! ### Claim theorems for the email retry queue -/

/-- C9: the sweep's result does not depend on the `max_retries` argument:
for any two values `v1`, `v2`, `retryFailedEmails v1` and
`retryFailedEmails v2` return the same counters and the same queue state
(the parameter is unused in `retry_failed_emails`; only each row's stored
`max_attempts` governs the cutoff). -/
theorem retryFailedEmails_ignores_max_retries (v1 v2 now : Nat)
    (send : String → String → String → Bool × String) (db : EmailDB) :
    retryFailedEmails v1 now send db = retryFailedEmails v2 now send db :=
  rfl

/-- C5: retry backoff is strictly monotone.  When the sweep processes a
due entry and the send fails without exhausting the cap (the row stays
`pending`), the newly assigned `next_attempt` is strictly later than the
previously stored one. -/
theorem retry_backoff_strictly_monotone (now : Nat)
    (send : String → String → String → Bool × String) (e e' : FailedEmail)
    (hdue : isDue now e = true)
    (hstep : retryStep now send e = some e')
    (hpend : e'.status = "pending") :
    e.next_attempt < e'.next_attempt := by
  have hle : e.next_attempt ≤ now := by
    simp only [isDue, Bool.and_eq_true, decide_eq_true_eq] at hdue
    exact hdue.2
  unfold retryStep at hstep
  rcases hsend : send e.recipient e.subject e.html_content with ⟨ok, msg⟩
  simp only [hsend] at hstep
  cases ok with
  | true => simp at hstep
  | false =>
      simp only at hstep
      split at hstep
      · rw [Option.some.injEq] at hstep
        subst hstep
        simp at hpend
      · rw [Option.some.injEq] at hstep
        subst hstep
        simp only
        have h5 : 1 ≤ 5 ^ (e.attempts + 1 - 1) := Nat.one_le_pow _ _ (by norm_num)
        omega

/-- C5 witness: a concrete pending entry due at time 10 is rescheduled
from `next_attempt = 6` to `next_attempt = 35`. -/
theorem retry_backoff_strictly_monotone_witness :
    entryFresh.next_attempt < entryFreshRetried.next_attempt :=
  retry_backoff_strictly_monotone 10 alwaysFail entryFresh entryFreshRetried
    rfl rfl rfl

/-- C3 counterexample: the claim says the status becomes `failed` exactly
when attempts reaches `max_attempts`, over every sequence of enqueue and
sweep operations.  But the enqueue path (`_queue_email`) increments the
attempts counter without ever consulting `max_attempts`: re-enqueueing a
pending entry that already has `attempts = 4` (of `max_attempts = 5`)
after another failed send leaves a row with `attempts = 5 = max_attempts`
and status still `"pending"`. -/
theorem enqueue_reaches_cap_without_failed_status :
    ((queueEmail ⟨[entryNearCap], 8⟩ 100 "a@b" "s2" "h2"
        "order_confirmation" (some 3) "boom").2.rows.map
      (fun e => (e.attempts, e.max_attempts, e.status)))
      = [(5, 5, "pending")] := rfl

/-- C3 (amended): within the retry sweep, a failed send attempt on a due
entry sets the status to `failed` exactly when the incremented attempts
counter has reached the stored `max_attempts` — never while
`attempts < max_attempts`, and always when it reaches it — and the
resulting status is always `failed` or `pending`.  The enqueue path, by
contrast, never produces a `failed` row: any `failed` row present after an
enqueue was already in the table. -/
theorem sweep_fails_exactly_at_max_attempts :
    (∀ (now : Nat) (send : String → String → String → Bool × String)
        (e e' : FailedEmail), isDue now e = true →
        retryStep now send e = some e' →
        e'.attempts = e.attempts + 1
        ∧ (e'.status = "failed" ↔ e'.attempts = e.max_attempts)
        ∧ (e'.status = "failed" ∨ e'.status = "pending"))
    ∧ (∀ (db : EmailDB) (now : Nat) (a b c d : String) (oid : Option Nat)
        (msg : String) (e' : FailedEmail),
        e' ∈ (queueEmail db now a b c d oid msg).2.rows →
        e'.status = "failed" → e' ∈ db.rows) := by
  constructor
  · intro now send e e' hdue hstep
    have hlt : e.attempts < e.max_attempts := by
      simp only [isDue, Bool.and_eq_true, decide_eq_true_eq] at hdue
      exact hdue.1.2
    unfold retryStep at hstep
    rcases hsend : send e.recipient e.subject e.html_content with ⟨ok, msg⟩
    simp only [hsend] at hstep
    cases ok with
    | true => simp at hstep
    | false =>
        simp only at hstep
        split at hstep
        · rw [Option.some.injEq] at hstep
          subst hstep
          refine ⟨rfl, ?_, Or.inl rfl⟩
          simp only [true_iff]
          omega
        · rw [Option.some.injEq] at hstep
          subst hstep
          rename_i hcap
          have hcap2 : ¬ (e.max_attempts ≤ e.attempts + 1) := hcap
          have hne : ("pending" : String) ≠ "failed" := by decide
          refine ⟨rfl, ⟨fun h => absurd h hne, fun h => ?_⟩, Or.inr rfl⟩
          have h2 : e.attempts + 1 = e.max_attempts := h
          exact absurd h2 (by omega)
  · intro db now a b c d oid msg e' hmem hfailed
    unfold queueEmail at hmem
    rcases hfind : db.rows.find? (queueMatch a d oid) with _ | y
    · simp only [hfind] at hmem
      simp only [List.mem_append, List.mem_singleton] at hmem
      rcases hmem with hmem | hmem
      · exact hmem
      · subst hmem
        exact absurd hfailed (by simp [freshEntry])
    · simp only [hfind] at hmem
      rcases mem_updateFirst _ _ _ _ hmem with hmem | ⟨y2, hy2, he'⟩
      · exact hmem
      · exfalso
        have hy2p : queueMatch a d oid y2 = true := List.find?_some hy2
        have : y2.status = "pending" := by
          simp only [queueMatch, Bool.and_eq_true, decide_eq_true_eq] at hy2p
          exact hy2p.2
        subst he'
        simp only [bumpExisting] at hfailed
        rw [this] at hfailed
        exact absurd hfailed (by decide)

/-- C3 witness: the concrete due entry with `attempts = 4`,
`max_attempts = 5` is moved to `attempts = 5` by a failed sweep attempt
and its resulting status is `failed` exactly because the counter reached
the cap. -/
theorem sweep_fails_exactly_at_max_attempts_witness :
    entryNearCapFailed.attempts = entryNearCap.attempts + 1
    ∧ (entryNearCapFailed.status = "failed"
        ↔ entryNearCapFailed.attempts = entryNearCap.max_attempts)
    ∧ (entryNearCapFailed.status = "failed"
        ∨ entryNearCapFailed.status = "pending") :=
  sweep_fails_exactly_at_max_attempts.1 10 alwaysFail entryNearCap
    entryNearCapFailed rfl rfl

/-- C4: enqueue deduplicates.  Without a matching
(recipient, type, order, pending) row, a fresh row is appended with
`attempts = 1`, status `pending` and `next_attempt = now + 5` minutes;
with one, exactly that row is rewritten in place — attempts incremented,
`last_attempt` and `error_message` refreshed, `next_attempt` pushed to
`now + 5 * 2 ^ attempts` minutes — and the table does not grow. -/
theorem queue_email_dedup (db : EmailDB) (now : Nat) (a b c d : String)
    (oid : Option Nat) (msg : String) :
    (db.rows.find? (queueMatch a d oid) = none →
        (queueEmail db now a b c d oid msg).2.rows
          = db.rows ++ [freshEntry db.nextId now a b c d oid msg]
        ∧ (freshEntry db.nextId now a b c d oid msg).attempts = 1
        ∧ (freshEntry db.nextId now a b c d oid msg).status = "pending"
        ∧ (freshEntry db.nextId now a b c d oid msg).next_attempt = now + 5)
    ∧ (∀ e, db.rows.find? (queueMatch a d oid) = some e →
        (queueEmail db now a b c d oid msg).2.rows
          = updateFirst (queueMatch a d oid) (bumpExisting now msg) db.rows
        ∧ ((queueEmail db now a b c d oid msg).2.rows).length
            = db.rows.length
        ∧ (bumpExisting now msg e).attempts = e.attempts + 1
        ∧ (bumpExisting now msg e).last_attempt = now
        ∧ (bumpExisting now msg e).error_message = msg
        ∧ (bumpExisting now msg e).next_attempt
            = now + 5 * 2 ^ (e.attempts + 1)) := by
  constructor
  · intro h
    refine ⟨?_, rfl, rfl, rfl⟩
    simp [queueEmail, h]
  · intro e h
    refine ⟨?_, ?_, rfl, rfl, rfl, rfl⟩
    · simp [queueEmail, h]
    · simp [queueEmail, h, updateFirst_length]

/-- C4 witness: enqueueing into an empty table inserts exactly the fresh
pending row scheduled five minutes ahead. -/
theorem queue_email_dedup_witness :
    (queueEmail ⟨[], 0⟩ 10 "a" "s" "h" "t" none "m").2.rows
        = [] ++ [freshEntry 0 10 "a" "s" "h" "t" none "m"]
    ∧ (freshEntry 0 10 "a" "s" "h" "t" none "m").attempts = 1
    ∧ (freshEntry 0 10 "a" "s" "h" "t" none "m").status = "pending"
    ∧ (freshEntry 0 10 "a" "s" "h" "t" none "m").next_attempt = 10 + 5 :=
  (queue_email_dedup ⟨[], 0⟩ 10 "a" "s" "h" "t" none "m").1 rfl

/-- The sweep never leaves a row in status `sent`: a processed row is
either deleted or comes back `failed` or `pending`. -/
theorem retryStep_status (now : Nat)
    (send : String → String → String → Bool × String) (e e' : FailedEmail)
    (hstep : retryStep now send e = some e') :
    e'.status = "failed" ∨ e'.status = "pending" := by
  unfold retryStep at hstep
  rcases hsend : send e.recipient e.subject e.html_content with ⟨ok, msg⟩
  simp only [hsend] at hstep
  cases ok with
  | true => simp at hstep
  | false =>
      simp only at hstep
      split at hstep <;> rw [Option.some.injEq] at hstep <;> subst hstep
      · exact Or.inl rfl
      · exact Or.inr rfl

/-- Enqueueing preserves the absence of `sent` rows. -/
theorem queueEmail_no_sent (db : EmailDB) (now : Nat) (a b c d : String)
    (oid : Option Nat) (msg : String)
    (h : ∀ e ∈ db.rows, e.status ≠ "sent") :
    ∀ e ∈ (queueEmail db now a b c d oid msg).2.rows, e.status ≠ "sent" := by
  intro e hmem
  unfold queueEmail at hmem
  rcases hfind : db.rows.find? (queueMatch a d oid) with _ | y
  · simp only [hfind] at hmem
    simp only [List.mem_append, List.mem_singleton] at hmem
    rcases hmem with hmem | hmem
    · exact h e hmem
    · subst hmem
      simp [freshEntry]
  · simp only [hfind] at hmem
    rcases mem_updateFirst _ _ _ _ hmem with hmem | ⟨y2, hy2, he⟩
    · exact h e hmem
    · subst he
      have : (bumpExisting now msg y2).status = y2.status := rfl
      rw [this]
      exact h y2 (List.mem_of_find?_eq_some hy2)

/-- C10: no operation of the email service ever assigns a queue row the
status `sent` (a successful retry deletes the row instead), so every
reachable queue state contains no `sent` row; consequently
`clear_sent_emails`, which deletes only `sent` rows, matches nothing and
returns 0 leaving the table unchanged. -/
theorem reachable_no_sent_and_clear_zero (db : EmailDB)
    (h : EmailDBReachable db) :
    (∀ e ∈ db.rows, e.status ≠ "sent")
    ∧ ∀ days now, clearSentEmails days now db = (0, db) := by
  have hinvAll : ∀ d : EmailDB, EmailDBReachable d →
      ∀ e ∈ d.rows, e.status ≠ "sent" := by
    intro d hd
    induction hd with
    | init n => intro e hmem; simp at hmem
    | enqueue db now a b c d oid msg _ ih =>
        exact queueEmail_no_sent db now a b c d oid msg ih
    | dispatch cfg t db now a b c d oid _ ih =>
        intro e hmem
        unfold sendEmail at hmem
        rcases hsmtp : smtpSend cfg.smtp_server cfg.smtp_port t with ⟨ok, m⟩
        simp only [hsmtp] at hmem
        cases ok with
        | true => exact ih e hmem
        | false =>
            exact queueEmail_no_sent db now a b c d oid m ih e hmem
    | sweep v now f db _ ih =>
        intro e hmem
        have hmem2 : e ∈ db.rows.filterMap
            (fun x => if isDue now x then retryStep now f x else some x) := hmem
        rw [List.mem_filterMap] at hmem2
        rcases hmem2 with ⟨x, hx, hfx⟩
        by_cases hd : isDue now x
        · rw [if_pos hd] at hfx
          rcases retryStep_status now f x e hfx with hs | hs <;> simp [hs]
        · rw [if_neg hd, Option.some.injEq] at hfx
          subst hfx
          exact ih x hx
    | purge days now db _ ih =>
        intro e hmem
        have hmem2 : e ∈ db.rows.filter
            (fun x => !(x.status = "sent" && x.created_at < now - days * 1440)) :=
          hmem
        exact ih e (List.mem_of_mem_filter hmem2)
  have hinv : ∀ e ∈ db.rows, e.status ≠ "sent" := hinvAll db h
  refine ⟨hinv, ?_⟩
  intro days now
  have hall : ∀ e ∈ db.rows,
      (e.status = "sent" && e.created_at < now - days * 1440) = false := by
    intro e hmem
    have := hinv e hmem
    simp [this]
  have h1 : db.rows.filter
      (fun e => e.status = "sent" && e.created_at < now - days * 1440) = [] := by
    rw [List.filter_eq_nil_iff]
    intro e hmem
    simp [hall e hmem]
  have h2 : db.rows.filter
      (fun e => !(e.status = "sent" && e.created_at < now - days * 1440))
        = db.rows := by
    rw [List.filter_eq_self]
    intro e hmem
    simp [hall e hmem]
  have hunfold : clearSentEmails days now db
      = ((db.rows.filter
            (fun e => e.status = "sent" && e.created_at < now - days * 1440)).length,
          ⟨db.rows.filter
            (fun e => !(e.status = "sent" && e.created_at < now - days * 1440)),
            db.nextId⟩) := rfl
  rw [hunfold, h1, h2]
  rfl

/-- C10 witness: a queue state reached by one enqueue into the empty table
has no `sent` rows and `clear_sent_emails` deletes nothing from it. -/
theorem reachable_no_sent_and_clear_zero_witness :
    clearSentEmails 7 20000
        (queueEmail ⟨[], 0⟩ 10 "a" "s" "h" "t" none "m").2
      = (0, (queueEmail ⟨[], 0⟩ 10 "a" "s" "h" "t" none "m").2) :=
  (reachable_no_sent_and_clear_zero
      (queueEmail ⟨[], 0⟩ 10 "a" "s" "h" "t" none "m").2
      (EmailDBReachable.enqueue ⟨[], 0⟩ 10 "a" "s" "h" "t" none "m"
        (EmailDBReachable.init 0))).2 7 20000

/-- Deleting a cart key removes it for good when the dict keys are unique
(which they are: Python dict keys). -/
theorem find?_eraseKey_self (key : String) (cart : SessionCart)
    (hnd : (cart.map Prod.fst).Nodup) :
    (eraseKey key cart).find? (fun kv => kv.1 = key) = none := by
  induction cart with
  | nil => rfl
  | cons kv rest ih =>
      simp only [List.map_cons, List.nodup_cons] at hnd
      by_cases h : kv.1 = key
      · simp only [eraseKey, if_pos h]
        rw [List.find?_eq_none]
        intro x hx
        simp only [decide_eq_true_eq]
        intro hxk
        apply hnd.1
        rw [h, ← hxk]
        exact List.mem_map_of_mem Prod.fst hx
      · simp only [eraseKey, if_neg h]
        rw [List.find?_cons_of_neg _ (by simpa using h)]
        exact ih hnd.2

/-- Deleting one cart key leaves the binding of every other key intact. -/
theorem find?_eraseKey_other (key k : String) (hk : k ≠ key)
    (cart : SessionCart) :
    (eraseKey key cart).find? (fun kv => kv.1 = k)
      = cart.find? (fun kv => kv.1 = k) := by
  induction cart with
  | nil => rfl
  | cons kv rest ih =>
      by_cases h : kv.1 = key
      · simp only [eraseKey, if_pos h]
        rw [List.find?_cons_of_neg _ (by simp [h, Ne.symm hk])]
      · simp only [eraseKey, if_neg h]
        by_cases hpk : kv.1 = k
        · rw [List.find?_cons_of_pos _ (by simp [hpk]),
            List.find?_cons_of_pos _ (by simp [hpk])]
        · rw [List.find?_cons_of_neg _ (by simp [hpk]),
            List.find?_cons_of_neg _ (by simp [hpk])]
          exact ih

/-- C7: cart removal is idempotent in the stated sense.  A missing key
(including an absent `cart_key` field) yields the 404 failure response
and leaves the cart exactly as it was; a present key results in exactly
that entry being deleted — it is gone afterwards (keys being unique) and
every other key's binding is untouched. -/
theorem remove_from_cart_spec (key : String) (cart : SessionCart) :
    (cart.find? (fun kv => kv.1 = key) = none →
        remove_from_cart (some key) cart
          = (.err 404 "Item not in cart", cart))
    ∧ remove_from_cart none cart = (.err 404 "Item not in cart", cart)
    ∧ (∀ e, cart.find? (fun kv => kv.1 = key) = some e →
        (remove_from_cart (some key) cart).2 = eraseKey key cart
        ∧ (remove_from_cart (some key) cart).1
            = .ok "Item removed" (cartItemCount (eraseKey key cart))
                (calculateCartTotal (eraseKey key cart))
        ∧ ((cart.map Prod.fst).Nodup →
            (eraseKey key cart).find? (fun kv => kv.1 = key) = none)
        ∧ ∀ k, k ≠ key →
            (eraseKey key cart).find? (fun kv => kv.1 = k)
              = cart.find? (fun kv => kv.1 = k)) := by
  refine ⟨?_, rfl, ?_⟩
  · intro h
    simp [remove_from_cart, h]
  · intro e h
    refine ⟨?_, ?_, fun hnd => find?_eraseKey_self key cart hnd,
      fun k hk => find?_eraseKey_other key k hk cart⟩
    · simp [remove_from_cart, h]
    · simp [remove_from_cart, h]

/-- C7 witness: removing the present key `"42_M"` from the two-entry cart
deletes exactly that entry and reports the remaining totals. -/
theorem remove_from_cart_spec_witness :
    (remove_from_cart (some "42_M") cartTwo).2 = eraseKey "42_M" cartTwo
    ∧ (remove_from_cart (some "42_M") cartTwo).1
        = .ok "Item removed" (cartItemCount (eraseKey "42_M" cartTwo))
            (calculateCartTotal (eraseKey "42_M" cartTwo))
    ∧ (eraseKey "42_M" cartTwo).find? (fun kv => kv.1 = "42_M") = none :=
  have h := (remove_from_cart_spec "42_M" cartTwo).2.2
    ("42_M", ⟨42, "Tee", 100, "M", 2, none, 5⟩) rfl
  ⟨h.1, h.2.1, h.2.2.1 (by decide)⟩

/-- C8 counterexample: the order number is not fixed-width across orders —
`str(id).zfill(4)` only pads to a minimum width of 4, so a five-digit id
produces a seven-character order number while id 1 produces six
characters. -/
theorem order_number_width_varies :
    (Order.order_number orderIdBig).length = 7
    ∧ (Order.order_number orderIdOne).length = 6 := by
  constructor <;> rfl

/-- C8 (amended): the order number is a pure deterministic function of the
order's id — the brand prefix `"VV"` followed by the decimal id
zero-padded to a *minimum* width of 4 (fixed width 6 only while ids stay
below 10000) — not stored separately, so recomputing it from the same id
always yields the same value. -/
theorem order_number_deterministic :
    (∀ o : Order, o.order_number = "VV" ++ zfill 4 (toString o.id))
    ∧ (∀ o1 o2 : Order, o1.id = o2.id →
        o1.order_number = o2.order_number)
    ∧ (∀ o : Order, ∃ digits : String,
        o.order_number = "VV" ++ digits
        ∧ digits.length = max 4 (toString o.id).length) := by
  refine ⟨fun o => rfl, fun o1 o2 h => ?_, fun o => ?_⟩
  · unfold Order.order_number
    rw [h]
  · refine ⟨zfill 4 (toString o.id), rfl, ?_⟩
    unfold zfill
    have hlen : (toString o.id).length = (toString o.id).data.length := rfl
    simp only [String.length_mk, List.length_append, List.length_replicate]
    rw [hlen]
    omega

/-- C8 witness: two orders sharing id 1 but differing in every other field
get the same order number. -/
theorem order_number_deterministic_witness :
    Order.order_number orderIdOne = Order.order_number orderIdOneOther :=
  order_number_deterministic.2.1 orderIdOne orderIdOneOther rfl

/-- `_queue_email` always reports failure (`False` first component). -/
theorem queueEmail_returns_false (db : EmailDB) (now : Nat)
    (a b c d : String) (oid : Option Nat) (msg : String) :
    (queueEmail db now a b c d oid msg).1.1 = false := by
  unfold queueEmail
  rcases hfind : db.rows.find? (queueMatch a d oid) with _ | y <;>
    simp [hfind]

/-- After `_queue_email` there is always a pending row for the failed
(recipient, type, order) triple. -/
theorem queueEmail_queues (db : EmailDB) (now : Nat) (a b c d : String)
    (oid : Option Nat) (msg : String) :
    ((queueEmail db now a b c d oid msg).2.rows.any
      (queueMatch a d oid)) = true := by
  unfold queueEmail
  rcases hfind : db.rows.find? (queueMatch a d oid) with _ | y
  · simp only [hfind]
    simp [List.any_append, queueMatch, freshEntry]
  · simp only [hfind]
    have hy : queueMatch a d oid y = true := List.find?_some hfind
    exact any_updateFirst_of_find? _ _ _ _ hfind
      (by simpa [queueMatch, bumpExisting] using hy)

/-- C6: every transport failure (auth failure, SMTP protocol error,
connection refused, timeout, or any other exception) makes `send_email`
return a `(delivered=false, detail)` pair — it never propagates — while
enqueueing the failure to the retry queue; and the enclosing checkout
response is entirely independent of the transport outcomes of its two
notification emails, so a checkout that succeeds still returns success
whatever the mail transport does. -/
theorem send_email_never_fails_checkout :
    (∀ (cfg : EmailConfig) (t : SmtpOutcome) (db : EmailDB) (now : Nat)
        (a b c d : String) (oid : Option Nat),
        t ≠ SmtpOutcome.delivered →
        (sendEmail cfg t db now a b c d oid).1.1 = false
        ∧ sendEmail cfg t db now a b c d oid
            = queueEmail db now a b c d oid
                (smtpSend cfg.smtp_server cfg.smtp_port t).2
        ∧ ((sendEmail cfg t db now a b c d oid).2.rows.any
            (queueMatch a d oid)) = true)
    ∧ (∀ (req : CheckoutRequest) (now : Nat) (cfg : EmailConfig)
        (t1 t2 t1' t2' : SmtpOutcome) (store : Store),
        (api_checkout req now cfg t1 t2 store).1
          = (api_checkout req now cfg t1' t2' store).1) := by
  constructor
  · intro cfg t db now a b c d oid ht
    have key : sendEmail cfg t db now a b c d oid
        = queueEmail db now a b c d oid
            (smtpSend cfg.smtp_server cfg.smtp_port t).2 := by
      cases t with
      | delivered => exact absurd rfl ht
      | authError m => rfl
      | smtpError m => rfl
      | connRefused => rfl
      | timeout => rfl
      | otherError m => rfl
    refine ⟨?_, key, ?_⟩
    · rw [key]
      exact queueEmail_returns_false db now a b c d oid _
    · rw [key]
      exact queueEmail_queues db now a b c d oid _
  · intro req now cfg t1 t2 t1' t2' store
    rcases req with ⟨c, its, st, df, tt, pm, ps, pr⟩
    cases c with
    | none => rfl
    | some c =>
    cases its with
    | none => rfl
    | some items =>
    cases st with
    | none => rfl
    | some st =>
    cases df with
    | none => rfl
    | some df =>
    cases tt with
    | none => rfl
    | some tt =>
    cases pm with
    | none => rfl
    | some pm =>
    cases hemp : items.isEmpty with
    | true => simp [api_checkout, hemp]
    | false =>
        cases hloop : checkoutLoop (ps.getD "pending" = "paid")
            store.next_order_id items store.next_order_item_id
            store.products [] with
        | error msg => simp [api_checkout, hemp, hloop]
        | ok res => simp [api_checkout, hemp, hloop]

/-- C6 witness: a timed-out customer-confirmation send is reported as
undelivered and lands in the retry queue. -/
theorem send_email_never_fails_checkout_witness :
    (sendEmail cfgDefault .timeout ⟨[], 0⟩ 5 "a@b" "s" "h"
        "order_confirmation" (some 1)).1.1 = false
    ∧ sendEmail cfgDefault .timeout ⟨[], 0⟩ 5 "a@b" "s" "h"
        "order_confirmation" (some 1)
        = queueEmail ⟨[], 0⟩ 5 "a@b" "s" "h" "order_confirmation" (some 1)
            (smtpSend cfgDefault.smtp_server cfgDefault.smtp_port .timeout).2
    ∧ ((sendEmail cfgDefault .timeout ⟨[], 0⟩ 5 "a@b" "s" "h"
        "order_confirmation" (some 1)).2.rows.any
        (queueMatch "a@b" "order_confirmation" (some 1))) = true :=
  send_email_never_fails_checkout.1 cfgDefault .timeout ⟨[], 0⟩ 5 "a@b"
    "s" "h" "order_confirmation" (some 1) (by decide)

/-- Inversion for `api_checkout`: every run either fails with a 400
response and the untouched datastore, or every required field was present,
the per-item loop succeeded, and the committed store extends the old one
with the new order, its items, and the updated products. -/
theorem api_checkout_shape (req : CheckoutRequest) (now : Nat)
    (cfg : EmailConfig) (t1 t2 : SmtpOutcome) (store : Store) :
    (∃ msg, api_checkout req now cfg t1 t2 store = (.err 400 msg, store))
    ∨ (∃ c items st df tt pm prods newItems nid1,
        req.customer = some c ∧ req.items = some items
        ∧ req.subtotal = some st ∧ req.delivery_fee = some df
        ∧ req.total = some tt ∧ req.payment_method = some pm
        ∧ items.isEmpty = false
        ∧ checkoutLoop (req.payment_status.getD "pending" = "paid")
            store.next_order_id items store.next_order_item_id
            store.products [] = .ok (prods, newItems, nid1)
        ∧ (api_checkout req now cfg t1 t2 store).1
            = .ok (checkoutOrder c st df tt pm req.payment_status
                req.payment_reference store.next_order_id).order_number
              "Order created successfully"
        ∧ (api_checkout req now cfg t1 t2 store).2.products = prods
        ∧ (api_checkout req now cfg t1 t2 store).2.orders
            = store.orders ++ [checkoutOrder c st df tt pm
                req.payment_status req.payment_reference
                store.next_order_id]
        ∧ (api_checkout req now cfg t1 t2 store).2.order_items
            = store.order_items ++ newItems) := by
  rcases req with ⟨c, its, st, df, tt, pm, ps, pr⟩
  cases c with
  | none => exact Or.inl ⟨_, rfl⟩
  | some c =>
  cases its with
  | none => exact Or.inl ⟨_, rfl⟩
  | some items =>
  cases st with
  | none => exact Or.inl ⟨_, rfl⟩
  | some st =>
  cases df with
  | none => exact Or.inl ⟨_, rfl⟩
  | some df =>
  cases tt with
  | none => exact Or.inl ⟨_, rfl⟩
  | some tt =>
  cases pm with
  | none => exact Or.inl ⟨_, rfl⟩
  | some pm =>
  cases hemp : items.isEmpty with
  | true =>
      exact Or.inl ⟨"No items in order", by simp [api_checkout, hemp]⟩
  | false =>
      cases hloop : checkoutLoop (ps.getD "pending" = "paid")
          store.next_order_id items store.next_order_item_id
          store.products [] with
      | error msg =>
          exact Or.inl ⟨msg, by simp [api_checkout, hemp, hloop]⟩
      | ok res =>
          rcases res with ⟨prods, newItems, nid1⟩
          refine Or.inr ⟨c, items, st, df, tt, pm, prods, newItems, nid1,
            rfl, rfl, rfl, rfl, rfl, rfl, hemp, hloop, ?_, ?_, ?_, ?_⟩ <;>
            simp [api_checkout, hemp, hloop]

/-- An id-preserving in-place update cannot make a missing product id
appear in the table. -/
theorem findProduct_updateFirst_none (l : List Product) (a pid : Nat)
    (f : Product → Product) (hf : ∀ x, (f x).id = x.id)
    (h : findProduct l pid = none) :
    findProduct (updateFirst (fun p => p.id = a) f l) pid = none := by
  unfold findProduct at h ⊢
  rw [List.find?_eq_none] at h ⊢
  intro x hx
  rcases mem_updateFirst _ _ _ _ hx with hx | ⟨y, hy, hxy⟩
  · exact h x hx
  · subst hxy
    have hyl : y ∈ l := List.mem_of_find?_eq_some hy
    simpa [hf y] using h y hyl

/-- If any item of the request cannot resolve a product id, the checkout
loop aborts with an error, whatever the session state. -/
theorem checkoutLoop_err_of_unresolved (paid : Bool) (oid : Nat) :
    ∀ (items : List CheckoutItem) (nid : Nat) (products : List Product)
      (acc : List OrderItem) (it : CheckoutItem), it ∈ items →
      it.resolvedId = none →
      ∃ msg, checkoutLoop paid oid items nid products acc
        = Except.error msg := by
  intro items
  induction items with
  | nil =>
      intro nid products acc it hmem
      simp at hmem
  | cons h rest ih =>
      intro nid products acc it hmem hres
      rcases List.mem_cons.mp hmem with hmem | hmem
      · subst hmem
        exact ⟨"Item missing product_id", by simp [checkoutLoop, hres]⟩
      · cases hres0 : h.resolvedId with
        | none =>
            exact ⟨"Item missing product_id", by simp [checkoutLoop, hres0]⟩
        | some pid0 =>
            cases hfind : findProduct products pid0 with
            | none =>
                exact ⟨"Product not found: " ++ toString pid0,
                  by simp [checkoutLoop, hres0, hfind]⟩
            | some p0 =>
                rcases hchk : checkSizeAvailability p0 h.size h.quantity
                  with ⟨ok0, m0⟩
                cases ok0 with
                | false =>
                    exact ⟨m0, by simp [checkoutLoop, hres0, hfind, hchk]⟩
                | true =>
                    rcases ih (nid + 1)
                        (if paid then
                          updateFirst (fun p => p.id = pid0)
                            (fun p => productAfterSale p h.size h.quantity)
                            products
                        else products)
                        (acc ++ [⟨nid, oid, pid0, h.size, h.quantity,
                          h.price⟩])
                        it hmem hres with ⟨msg, hmsg⟩
                    exact ⟨msg,
                      by simp [checkoutLoop, hres0, hfind, hchk, hmsg]⟩

/-- If any item of the request names a product id absent from the session
product table, the checkout loop aborts with an error (later stock
updates never change the set of ids). -/
theorem checkoutLoop_err_of_missing (paid : Bool) (oid : Nat) :
    ∀ (items : List CheckoutItem) (nid : Nat) (products : List Product)
      (acc : List OrderItem) (it : CheckoutItem) (pid : Nat),
      it ∈ items → it.resolvedId = some pid →
      findProduct products pid = none →
      ∃ msg, checkoutLoop paid oid items nid products acc
        = Except.error msg := by
  intro items
  induction items with
  | nil =>
      intro nid products acc it pid hmem
      simp at hmem
  | cons h rest ih =>
      intro nid products acc it pid hmem hres hnone
      rcases List.mem_cons.mp hmem with hmem | hmem
      · subst hmem
        exact ⟨"Product not found: " ++ toString pid,
          by simp [checkoutLoop, hres, hnone]⟩
      · cases hres0 : h.resolvedId with
        | none =>
            exact ⟨"Item missing product_id", by simp [checkoutLoop, hres0]⟩
        | some pid0 =>
            cases hfind : findProduct products pid0 with
            | none =>
                exact ⟨"Product not found: " ++ toString pid0,
                  by simp [checkoutLoop, hres0, hfind]⟩
            | some p0 =>
                rcases hchk : checkSizeAvailability p0 h.size h.quantity
                  with ⟨ok0, m0⟩
                cases ok0 with
                | false =>
                    exact ⟨m0, by simp [checkoutLoop, hres0, hfind, hchk]⟩
                | true =>
                    have hnone1 : findProduct
                        (if paid then
                          updateFirst (fun p => p.id = pid0)
                            (fun p => productAfterSale p h.size h.quantity)
                            products
                        else products) pid = none := by
                      cases paid
                      · simpa using hnone
                      · simpa using findProduct_updateFirst_none products
                          pid0 pid
                          (fun p => productAfterSale p h.size h.quantity)
                          (fun x => rfl) hnone
                    rcases ih (nid + 1) _ (acc ++ [⟨nid, oid, pid0, h.size,
                        h.quantity, h.price⟩]) it pid hmem hres hnone1
                      with ⟨msg, hmsg⟩
                    exact ⟨msg,
                      by simp [checkoutLoop, hres0, hfind, hchk, hmsg]⟩

/-- Updating the first match of an in-place update compatible with a
pointwise relation preserves the relation. -/
theorem forall₂_updateFirst_left {α β : Type} {R : α → β → Prop}
    (p : α → Bool) (f : α → α) {l' : List α} {l : List β}
    (h : List.Forall₂ R l' l) (hstep : ∀ x y, R x y → R (f x) y) :
    List.Forall₂ R (updateFirst p f l') l := by
  induction h with
  | nil => exact List.Forall₂.nil
  | @cons x y xs ys hxy htail ih =>
      by_cases hp : p x
      · simpa [updateFirst, hp] using
          List.Forall₂.cons (hstep x y hxy) htail
      · simpa [updateFirst, hp] using List.Forall₂.cons hxy ih

theorem sizesShrink_refl (s : List (String × Int)) : sizesShrink s s := by
  induction s with
  | nil => exact List.Forall₂.nil
  | cons kv rest ih => exact List.Forall₂.cons ⟨rfl, le_refl _⟩ ih

theorem productsShrink_refl (l : List Product) : productsShrink l l := by
  induction l with
  | nil => exact List.Forall₂.nil
  | cons p rest ih =>
      exact List.Forall₂.cons ⟨rfl, sizesShrink_refl _⟩ ih

/-- A stock deduction with non-negative quantity only shrinks a product. -/
theorem prodShrink_sale (x : Product) (s : String) (q : Int) (hq : 0 ≤ q)
    {y : Product} (hxy : prodShrink x y) :
    prodShrink (productAfterSale x s q) y := by
  refine ⟨hxy.1, ?_⟩
  unfold productAfterSale sizesDecrement
  exact forall₂_updateFirst_left _ _ hxy.2
    (fun a b hab => ⟨hab.1, by have h2 := hab.2; omega⟩)

/-- The paid-branch product update of the loop preserves the shrink
relation to the pre-checkout table. -/
theorem productsShrink_update {l' l : List Product}
    (h : productsShrink l' l) (pid : Nat) (s : String) (q : Int)
    (hq : 0 ≤ q) :
    productsShrink (updateFirst (fun p => p.id = pid)
      (fun p => productAfterSale p s q) l') l :=
  forall₂_updateFirst_left _ _ h
    (fun x y hxy => prodShrink_sale x s q hq hxy)

/-- A product found in the original table is still found (shrunken) in the
session table. -/
theorem findProduct_shrink_some {l' l : List Product}
    (h : productsShrink l' l) (pid : Nat) (p : Product)
    (hfind : findProduct l pid = some p) :
    ∃ p', findProduct l' pid = some p' ∧ prodShrink p' p := by
  induction h with
  | nil => simp [findProduct] at hfind
  | @cons x y xs ys hxy htail ih =>
      by_cases hid : y.id = pid
      · unfold findProduct at hfind
        rw [List.find?_cons_of_pos _ (by simp [hid]),
          Option.some.injEq] at hfind
        subst hfind
        refine ⟨x, ?_, hxy⟩
        unfold findProduct
        rw [List.find?_cons_of_pos _ (by simp [hxy.1, hid])]
      · unfold findProduct at hfind
        rw [List.find?_cons_of_neg _ (by simp [hid])] at hfind
        rcases ih hfind with ⟨p', hp', hps⟩
        refine ⟨p', ?_, hps⟩
        unfold findProduct
        rw [List.find?_cons_of_neg _ (by simp [hxy.1, hid])]
        exact hp'

/-- Lookups in a shrunken size map: absent keys stay absent, present keys
keep at most their original count. -/
theorem sizesLookup_shrink {a b : List (String × Int)}
    (h : sizesShrink a b) (s : String) :
    (sizesLookup b s = none → sizesLookup a s = none)
    ∧ (∀ v, sizesLookup b s = some v →
        ∃ v', sizesLookup a s = some v' ∧ v' ≤ v) := by
  induction h with
  | nil => exact ⟨fun _ => rfl, fun v hv => by simp [sizesLookup] at hv⟩
  | @cons x y xs ys hxy htail ih =>
      by_cases hk : y.1 = s
      · have hk2 : x.1 = s := hxy.1.trans hk
        constructor
        · intro hnone
          unfold sizesLookup at hnone
          rw [List.find?_cons_of_pos _ (by simp [hk])] at hnone
          simp at hnone
        · intro v hv
          unfold sizesLookup at hv
          rw [List.find?_cons_of_pos _ (by simp [hk])] at hv
          simp at hv
          refine ⟨x.2, ?_, hv ▸ hxy.2⟩
          unfold sizesLookup
          rw [List.find?_cons_of_pos _ (by simp [hk2])]
          rfl
      · have hk2 : ¬ x.1 = s := fun hx => hk (hxy.1 ▸ hx)
        constructor
        · intro hnone
          unfold sizesLookup at hnone ⊢
          rw [List.find?_cons_of_neg _ (by simp [hk])] at hnone
          rw [List.find?_cons_of_neg _ (by simp [hk2])]
          exact ih.1 hnone
        · intro v hv
          unfold sizesLookup at hv ⊢
          rw [List.find?_cons_of_neg _ (by simp [hk])] at hv
          rcases ih.2 v hv with ⟨v', hv', hle⟩
          refine ⟨v', ?_, hle⟩
          rw [List.find?_cons_of_neg _ (by simp [hk2])]
          exact hv'

/-- A failing availability check keeps failing on a shrunken product:
stock only went down since the original table. -/
theorem checkSizeAvailability_mono (p' p : Product) (h : prodShrink p' p)
    (s : String) (q : Int)
    (hfail : (checkSizeAvailability p s q).1 = false) :
    (checkSizeAvailability p' s q).1 = false := by
  unfold checkSizeAvailability at hfail ⊢
  cases hb : sizesLookup p.sizes s with
  | none =>
      rw [(sizesLookup_shrink h.2 s).1 hb]
  | some v =>
      rw [hb] at hfail
      rcases (sizesLookup_shrink h.2 s).2 v hb with ⟨v', hv', hle⟩
      rw [hv']
      simp only at hfail ⊢
      split at hfail
      · simp at hfail
      · rename_i hqv
        rw [if_neg (by omega)]

/-- If (with non-negative quantities) any item fails its availability
check against the pre-checkout product table, the loop aborts: stock only
shrinks while the loop runs, so the executed check fails as well. -/
theorem checkoutLoop_err_of_check_fail (paid : Bool) (oid : Nat) :
    ∀ (items : List CheckoutItem) (base : List Product) (nid : Nat)
      (products : List Product) (acc : List OrderItem)
      (it : CheckoutItem) (pid : Nat) (p : Product),
      productsShrink products base →
      (∀ j ∈ items, 0 ≤ j.quantity) →
      it ∈ items → it.resolvedId = some pid →
      findProduct base pid = some p →
      (checkSizeAvailability p it.size it.quantity).1 = false →
      ∃ msg, checkoutLoop paid oid items nid products acc
        = Except.error msg := by
  intro items
  induction items with
  | nil =>
      intro base nid products acc it pid p hshr hq hmem
      simp at hmem
  | cons h rest ih =>
      intro base nid products acc it pid p hshr hq hmem hres hfbase hfail
      rcases List.mem_cons.mp hmem with hmem | hmem
      · subst hmem
        cases hfindc : findProduct products pid with
        | none =>
            exact ⟨"Product not found: " ++ toString pid,
              by simp [checkoutLoop, hres, hfindc]⟩
        | some pcur =>
            rcases findProduct_shrink_some hshr pid p hfbase
              with ⟨p'', hp'', hps⟩
            rw [hfindc, Option.some.injEq] at hp''
            subst hp''
            have hfail2 : (checkSizeAvailability pcur it.size it.quantity).1
                = false := checkSizeAvailability_mono pcur p hps _ _ hfail
            rcases hchk : checkSizeAvailability pcur it.size it.quantity
              with ⟨ok0, m0⟩
            rw [hchk] at hfail2
            cases ok0 with
            | true => simp at hfail2
            | false =>
                exact ⟨m0, by simp [checkoutLoop, hres, hfindc, hchk]⟩
      · cases hres0 : h.resolvedId with
        | none =>
            exact ⟨"Item missing product_id", by simp [checkoutLoop, hres0]⟩
        | some pid0 =>
            cases hfind : findProduct products pid0 with
            | none =>
                exact ⟨"Product not found: " ++ toString pid0,
                  by simp [checkoutLoop, hres0, hfind]⟩
            | some p0 =>
                rcases hchk : checkSizeAvailability p0 h.size h.quantity
                  with ⟨ok0, m0⟩
                cases ok0 with
                | false =>
                    exact ⟨m0, by simp [checkoutLoop, hres0, hfind, hchk]⟩
                | true =>
                    have hq0 : 0 ≤ h.quantity :=
                      hq h (List.mem_cons_self h rest)
                    have hshr1 : productsShrink
                        (if paid then
                          updateFirst (fun p => p.id = pid0)
                            (fun p => productAfterSale p h.size h.quantity)
                            products
                        else products) base := by
                      cases paid
                      · simpa using hshr
                      · simpa using productsShrink_update hshr pid0 h.size
                          h.quantity hq0
                    rcases ih base (nid + 1) _ (acc ++ [⟨nid, oid, pid0,
                        h.size, h.quantity, h.price⟩]) it pid p hshr1
                        (fun j hj => hq j (List.mem_cons_of_mem h hj))
                        hmem hres hfbase hfail
                      with ⟨msg, hmsg⟩
                    exact ⟨msg,
                      by simp [checkoutLoop, hres0, hfind, hchk, hmsg]⟩

/-- C1: checkout is atomic.  Whenever the response reports failure, the
committed datastore is exactly what it was before the request (the
session's provisional order and items are rolled back, never committed);
and each of the listed conditions — a missing required top-level field, an
empty items list, an item whose product id does not resolve, an item
naming an unknown product, or (with non-negative quantities) an item
failing the size/quantity availability check against the pre-checkout
stock — forces such a failure response. -/
theorem checkout_atomic_on_failure (req : CheckoutRequest) (now : Nat)
    (cfg : EmailConfig) (t1 t2 : SmtpOutcome) (store : Store)
    (resp : ApiResponse) (store' : Store)
    (hrun : api_checkout req now cfg t1 t2 store = (resp, store')) :
    (resp.isErr = true → store' = store)
    ∧ ((req.customer = none ∨ req.items = none ∨ req.subtotal = none
        ∨ req.delivery_fee = none ∨ req.total = none
        ∨ req.payment_method = none) → resp.isErr = true)
    ∧ (∀ items, req.items = some items →
        (items = [] → resp.isErr = true)
        ∧ (∀ it ∈ items, it.resolvedId = none → resp.isErr = true)
        ∧ (∀ it ∈ items, ∀ pid, it.resolvedId = some pid →
            findProduct store.products pid = none → resp.isErr = true)
        ∧ ((∀ j ∈ items, 0 ≤ j.quantity) →
            ∀ it ∈ items, ∀ pid p, it.resolvedId = some pid →
            findProduct store.products pid = some p →
            (checkSizeAvailability p it.size it.quantity).1 = false →
            resp.isErr = true)) := by
  rcases api_checkout_shape req now cfg t1 t2 store with ⟨msg, heq⟩ |
    ⟨c, items0, st, df, tt, pm, prods, newItems, nid1, hc, hits, hst, hdf,
      htt, hpm, hemp, hloop, hresp1, hprod1, hord1, hoi1⟩
  · rw [heq, Prod.mk.injEq] at hrun
    obtain ⟨hresp, hstore⟩ := hrun
    subst hresp
    subst hstore
    exact ⟨fun _ => rfl, fun _ => rfl,
      fun items hitems =>
        ⟨fun _ => rfl, fun _ _ _ => rfl, fun _ _ _ _ _ => rfl,
          fun _ _ _ _ _ _ _ _ => rfl⟩⟩
  · have hresp : resp = .ok (checkoutOrder c st df tt pm req.payment_status
        req.payment_reference store.next_order_id).order_number
        "Order created successfully" := by
      rw [hrun] at hresp1
      exact hresp1
    subst hresp
    refine ⟨?_, ?_, ?_⟩
    · intro herr
      exact absurd herr (by simp [ApiResponse.isErr])
    · intro hmiss
      exfalso
      rcases hmiss with hm | hm | hm | hm | hm | hm
      · exact Option.noConfusion (hm ▸ hc)
      · exact Option.noConfusion (hm ▸ hits)
      · exact Option.noConfusion (hm ▸ hst)
      · exact Option.noConfusion (hm ▸ hdf)
      · exact Option.noConfusion (hm ▸ htt)
      · exact Option.noConfusion (hm ▸ hpm)
    · intro items hitems
      rw [hitems] at hits
      injection hits with hii
      subst hii
      refine ⟨?_, ?_, ?_, ?_⟩
      · intro hnil
        exfalso
        rw [hnil] at hemp
        simp at hemp
      · intro it hit hres
        exfalso
        rcases checkoutLoop_err_of_unresolved
            (req.payment_status.getD "pending" = "paid")
            store.next_order_id items store.next_order_item_id
            store.products [] it hit hres with ⟨m, hm⟩
        rw [hm] at hloop
        exact Except.noConfusion hloop
      · intro it hit pid hres hnone
        exfalso
        rcases checkoutLoop_err_of_missing
            (req.payment_status.getD "pending" = "paid")
            store.next_order_id items store.next_order_item_id
            store.products [] it pid hit hres hnone with ⟨m, hm⟩
        rw [hm] at hloop
        exact Except.noConfusion hloop
      · intro hq it hit pid p hres hfind hfail
        exfalso
        rcases checkoutLoop_err_of_check_fail
            (req.payment_status.getD "pending" = "paid")
            store.next_order_id items store.products
            store.next_order_item_id store.products [] it pid p
            (productsShrink_refl _) hq hit hres hfind hfail with ⟨m, hm⟩
        rw [hm] at hloop
        exact Except.noConfusion hloop

/-- C1 witness: the over-quantity scenario request (9 of size M against
stock 5) fails its availability check, and the run returns an error
response leaving the scenario datastore untouched. -/
theorem checkout_atomic_on_failure_witness :
    ((api_checkout reqScenarioBad 10 cfgDefault .delivered .delivered
        storeScenario).1).isErr = true
    ∧ (api_checkout reqScenarioBad 10 cfgDefault .delivered .delivered
        storeScenario).2 = storeScenario :=
  have h := checkout_atomic_on_failure reqScenarioBad 10 cfgDefault
    .delivered .delivered storeScenario
    (api_checkout reqScenarioBad 10 cfgDefault .delivered .delivered
      storeScenario).1
    (api_checkout reqScenarioBad 10 cfgDefault .delivered .delivered
      storeScenario).2 rfl
  have herr := ((h.2.2 [⟨some 42, none, "M", 9, 100⟩] rfl).2.2.2
    (by decide) ⟨some 42, none, "M", 9, 100⟩ (by decide) 42
    productScenario rfl rfl rfl)
  ⟨herr, h.1 herr⟩

theorem findProduct_cons_pos (x : Product) (xs : List Product) (pid : Nat)
    (h : x.id = pid) : findProduct (x :: xs) pid = some x := by
  unfold findProduct
  rw [List.find?_cons_of_pos _ (by simp [h])]

theorem findProduct_cons_neg (x : Product) (xs : List Product) (pid : Nat)
    (h : ¬ x.id = pid) : findProduct (x :: xs) pid = findProduct xs pid := by
  unfold findProduct
  rw [List.find?_cons_of_neg _ (by simp [h])]

/-- An in-place update keyed on one product id leaves lookups of any other
id unchanged (ids themselves are preserved by the update). -/
theorem findProduct_updateFirst_ne (l : List Product) (a pid : Nat)
    (hne : a ≠ pid) (f : Product → Product)
    (hf : ∀ x, (f x).id = x.id) :
    findProduct (updateFirst (fun p => p.id = a) f l) pid
      = findProduct l pid := by
  induction l with
  | nil => rfl
  | cons x xs ih =>
      by_cases hx : x.id = a
      · rw [show updateFirst (fun p => p.id = a) f (x :: xs) = f x :: xs
            from by simp [updateFirst, hx]]
        rw [findProduct_cons_neg _ _ _ (by rw [hf x, hx]; exact hne),
          findProduct_cons_neg _ _ _ (by rw [hx]; exact hne)]
      · rw [show updateFirst (fun p => p.id = a) f (x :: xs)
            = x :: updateFirst (fun p => p.id = a) f xs
            from by simp [updateFirst, hx]]
        by_cases hp : x.id = pid
        · rw [findProduct_cons_pos _ _ _ hp, findProduct_cons_pos _ _ _ hp]
        · rw [findProduct_cons_neg _ _ _ hp, findProduct_cons_neg _ _ _ hp]
          exact ih

/-- The product found under an id is, after the keyed in-place update,
found as its updated image. -/
theorem findProduct_updateFirst_self (l : List Product) (a : Nat)
    (f : Product → Product) (x : Product)
    (hfind : findProduct l a = some x) (hfx : (f x).id = x.id) :
    findProduct (updateFirst (fun p => p.id = a) f l) a = some (f x) := by
  induction l with
  | nil => simp [findProduct] at hfind
  | cons y ys ih =>
      by_cases hy : y.id = a
      · rw [findProduct_cons_pos _ _ _ hy, Option.some.injEq] at hfind
        subst hfind
        rw [show updateFirst (fun p => p.id = a) f (y :: ys) = f y :: ys
            from by simp [updateFirst, hy]]
        exact findProduct_cons_pos _ _ _ (by rw [hfx, hy])
      · rw [findProduct_cons_neg _ _ _ hy] at hfind
        rw [show updateFirst (fun p => p.id = a) f (y :: ys)
            = y :: updateFirst (fun p => p.id = a) f ys
            from by simp [updateFirst, hy]]
        rw [findProduct_cons_neg _ _ _ hy]
        exact ih hfind

theorem sizesLookup_cons_pos (kv : String × Int)
    (rest : List (String × Int)) (s : String) (h : kv.1 = s) :
    sizesLookup (kv :: rest) s = some kv.2 := by
  unfold sizesLookup
  rw [List.find?_cons_of_pos _ (by simp [h])]
  rfl

theorem sizesLookup_cons_neg (kv : String × Int)
    (rest : List (String × Int)) (s : String) (h : ¬ kv.1 = s) :
    sizesLookup (kv :: rest) s = sizesLookup rest s := by
  unfold sizesLookup
  rw [List.find?_cons_of_neg _ (by simp [h])]

/-- The sold size's count drops by exactly the quantity. -/
theorem sizesLookup_decrement_self (sizes : List (String × Int))
    (s : String) (q : Int) :
    sizesLookup (sizesDecrement sizes s q) s
      = (sizesLookup sizes s).map (fun v => v - q) := by
  induction sizes with
  | nil => rfl
  | cons kv rest ih =>
      by_cases hk : kv.1 = s
      · rw [show sizesDecrement (kv :: rest) s q = (kv.1, kv.2 - q) :: rest
            from by simp [sizesDecrement, updateFirst, hk]]
        rw [sizesLookup_cons_pos kv rest s hk,
          sizesLookup_cons_pos (kv.1, kv.2 - q) rest s hk]
        rfl
      · rw [show sizesDecrement (kv :: rest) s q
            = kv :: sizesDecrement rest s q
            from by simp [sizesDecrement, updateFirst, hk]]
        rw [sizesLookup_cons_neg _ _ _ hk, sizesLookup_cons_neg _ _ _ hk]
        exact ih

/-- Every other size's count is untouched by the decrement. -/
theorem sizesLookup_decrement_other (sizes : List (String × Int))
    (s : String) (q : Int) (s' : String) (h : s' ≠ s) :
    sizesLookup (sizesDecrement sizes s q) s' = sizesLookup sizes s' := by
  induction sizes with
  | nil => rfl
  | cons kv rest ih =>
      by_cases hk : kv.1 = s
      · rw [show sizesDecrement (kv :: rest) s q = (kv.1, kv.2 - q) :: rest
            from by simp [sizesDecrement, updateFirst, hk]]
        have hk2 : ¬ kv.1 = s' := by rw [hk]; exact fun he => h he.symm
        rw [sizesLookup_cons_neg kv rest s' hk2,
          sizesLookup_cons_neg (kv.1, kv.2 - q) rest s' hk2]
      · rw [show sizesDecrement (kv :: rest) s q
            = kv :: sizesDecrement rest s q
            from by simp [sizesDecrement, updateFirst, hk]]
        by_cases hp : kv.1 = s'
        · rw [sizesLookup_cons_pos _ _ _ hp, sizesLookup_cons_pos _ _ _ hp]
        · rw [sizesLookup_cons_neg _ _ _ hp, sizesLookup_cons_neg _ _ _ hp]
          exact ih

/-- A successful loop leaves every product whose id no item resolves to
exactly where the session found it. -/
theorem checkoutLoop_ok_untouched (paid : Bool) (oid : Nat) :
    ∀ (items : List CheckoutItem) (nid : Nat) (products : List Product)
      (acc : List OrderItem) (prods : List Product)
      (its2 : List OrderItem) (nid2 : Nat) (pid : Nat),
      checkoutLoop paid oid items nid products acc
        = Except.ok (prods, its2, nid2) →
      (∀ j ∈ items, j.resolvedId ≠ some pid) →
      findProduct prods pid = findProduct products pid := by
  intro items
  induction items with
  | nil =>
      intro nid products acc prods its2 nid2 pid hstep hnone
      simp only [checkoutLoop, Except.ok.injEq, Prod.mk.injEq] at hstep
      rw [← hstep.1]
  | cons h rest ih =>
      intro nid products acc prods its2 nid2 pid hstep hnone
      cases hres0 : h.resolvedId with
      | none => simp [checkoutLoop, hres0] at hstep
      | some pid0 =>
          have hpid : pid0 ≠ pid := by
            intro he
            exact hnone h (List.mem_cons_self h rest) (by rw [hres0, he])
          cases hfind : findProduct products pid0 with
          | none => simp [checkoutLoop, hres0, hfind] at hstep
          | some p0 =>
              rcases hchk : checkSizeAvailability p0 h.size h.quantity
                with ⟨ok0, m0⟩
              cases ok0 with
              | false => simp [checkoutLoop, hres0, hfind, hchk] at hstep
              | true =>
                  simp only [checkoutLoop, hres0, hfind, hchk] at hstep
                  have hrec := ih (nid + 1) _ _ prods its2 nid2 pid hstep
                    (fun j hj => hnone j (List.mem_cons_of_mem h hj))
                  rw [hrec]
                  cases paid
                  · simp
                  · simpa using findProduct_updateFirst_ne products pid0
                      pid hpid
                      (fun p => productAfterSale p h.size h.quantity)
                      (fun x => rfl)

/-- When exactly one item of a paid checkout resolves to a given product
id, the loop validated that item against the pre-loop product state and
left exactly one stock deduction on that product. -/
theorem checkoutLoop_ok_once (oid : Nat) :
    ∀ (items : List CheckoutItem) (nid : Nat) (products : List Product)
      (acc : List OrderItem) (prods : List Product)
      (its2 : List OrderItem) (nid2 : Nat) (pid : Nat)
      (it : CheckoutItem) (p : Product),
      checkoutLoop true oid items nid products acc
        = Except.ok (prods, its2, nid2) →
      items.filter (fun j => j.resolvedId = some pid) = [it] →
      findProduct products pid = some p →
      (checkSizeAvailability p it.size it.quantity).1 = true
      ∧ findProduct prods pid
          = some (productAfterSale p it.size it.quantity) := by
  intro items
  induction items with
  | nil =>
      intro nid products acc prods its2 nid2 pid it p hstep hfilter
      simp at hfilter
  | cons h rest ih =>
      intro nid products acc prods its2 nid2 pid it p hstep hfilter hfind
      cases hres0 : h.resolvedId with
      | none => simp [checkoutLoop, hres0] at hstep
      | some pid0 =>
          cases hfindc : findProduct products pid0 with
          | none => simp [checkoutLoop, hres0, hfindc] at hstep
          | some p0 =>
              rcases hchk : checkSizeAvailability p0 h.size h.quantity
                with ⟨ok0, m0⟩
              cases ok0 with
              | false => simp [checkoutLoop, hres0, hfindc, hchk] at hstep
              | true =>
                  simp only [checkoutLoop, hres0, hfindc, hchk,
                    if_true] at hstep
                  by_cases hpp : pid0 = pid
                  · subst hpp
                    rw [List.filter_cons_of_pos (by simp [hres0])]
                      at hfilter
                    injection hfilter with hhit hrest0
                    subst hhit
                    have hfindc2 := hfindc
                    rw [hfind, Option.some.injEq] at hfindc2
                    subst hfindc2
                    constructor
                    · rw [hchk]
                    · have huntouched := checkoutLoop_ok_untouched true oid
                        rest (nid + 1) _ _ prods its2 nid2 pid0 hstep
                        (by
                          intro j hj hjres
                          have : j ∈ rest.filter
                              (fun j => j.resolvedId = some pid0) :=
                            List.mem_filter.mpr ⟨hj, by simp [hjres]⟩
                          rw [hrest0] at this
                          simp at this)
                      rw [huntouched]
                      exact findProduct_updateFirst_self products pid0
                        (fun x => productAfterSale x h.size h.quantity)
                        p hfindc rfl
                  · have hne : ¬ (h.resolvedId = some pid) := by
                      rw [hres0]
                      simp [hpp]
                    rw [List.filter_cons_of_neg (by simp [hne])] at hfilter
                    have hfind1 : findProduct
                        (updateFirst (fun x => x.id = pid0)
                          (fun x => productAfterSale x h.size h.quantity)
                          products) pid = some p := by
                      rw [findProduct_updateFirst_ne products pid0 pid hpp
                        (fun x => productAfterSale x h.size h.quantity)
                        (fun x => rfl)]
                      exact hfind
                    exact ih (nid + 1) _ _ prods its2 nid2 pid it p hstep
                      hfilter hfind1

/-- C2: stock conservation under paid checkout.  For every successful
checkout with `payment_status="paid"`, each product targeted by exactly
one item ends with that size's count lowered by exactly the item quantity
(every other size untouched), `stock` recomputed as the sum of the size
counts, `sold_count` raised by the quantity, and — the availability check
having passed — the decremented count stays non-negative whenever the size
counts were non-negative before.  In particular the spec scenario: a cart
of {product 42, size "M", quantity 3} against sizes {"M": 5} and
`payment_status="paid"` yields sizes {"M": 2}, `stock = 2`,
`sold_count` increased by 3, and exactly one order holding exactly one
order item (the literal equality with `storeScenarioAfter`). -/
theorem paid_checkout_stock_conservation :
    (∀ (req : CheckoutRequest) (now : Nat) (cfg : EmailConfig)
        (t1 t2 : SmtpOutcome) (store : Store) (resp : ApiResponse)
        (store' : Store) (items : List CheckoutItem) (it : CheckoutItem)
        (pid : Nat) (p : Product),
        api_checkout req now cfg t1 t2 store = (resp, store') →
        resp.isErr = false →
        req.payment_status = some "paid" →
        req.items = some items →
        items.filter (fun j => j.resolvedId = some pid) = [it] →
        findProduct store.products pid = some p →
        ∃ v, sizesLookup p.sizes it.size = some v
          ∧ it.quantity ≤ v
          ∧ findProduct store'.products pid
              = some (productAfterSale p it.size it.quantity)
          ∧ sizesLookup (productAfterSale p it.size it.quantity).sizes
              it.size = some (v - it.quantity)
          ∧ (∀ s, s ≠ it.size →
              sizesLookup (productAfterSale p it.size it.quantity).sizes s
                = sizesLookup p.sizes s)
          ∧ (productAfterSale p it.size it.quantity).stock
              = sizesSum (productAfterSale p it.size it.quantity).sizes
          ∧ (productAfterSale p it.size it.quantity).sold_count
              = p.sold_count + it.quantity
          ∧ ((∀ kv ∈ p.sizes, 0 ≤ kv.2) →
              ∀ kv ∈ (productAfterSale p it.size it.quantity).sizes,
                0 ≤ kv.2))
    ∧ api_checkout reqScenario 10 cfgDefault .delivered .delivered
        storeScenario
      = (.ok "VV0001" "Order created successfully", storeScenarioAfter) := by
  constructor
  · intro req now cfg t1 t2 store resp store' items it pid p hrun hok hps
      hitems hfilter hfindp
    rcases api_checkout_shape req now cfg t1 t2 store with ⟨msg, heq⟩ |
      ⟨c, items0, st, df, tt, pm, prods, newItems, nid1, hc, hits, hst,
        hdf, htt, hpm, hemp, hloop, hresp1, hprod1, hord1, hoi1⟩
    · exfalso
      rw [heq, Prod.mk.injEq] at hrun
      obtain ⟨h1, h2⟩ := hrun
      rw [← h1] at hok
      simp [ApiResponse.isErr] at hok
    · rw [hitems] at hits
      injection hits with hii
      subst hii
      rw [hps] at hloop
      have hloop2 : checkoutLoop true store.next_order_id items
          store.next_order_item_id store.products []
          = Except.ok (prods, newItems, nid1) := by
        simpa using hloop
      obtain ⟨hchkT, hfinal⟩ := checkoutLoop_ok_once store.next_order_id
        items store.next_order_item_id store.products [] prods newItems
        nid1 pid it p hloop2 hfilter hfindp
      have hsp : store'.products = prods := by
        rw [hrun] at hprod1
        exact hprod1
      unfold checkSizeAvailability at hchkT
      cases hb : sizesLookup p.sizes it.size with
      | none =>
          rw [hb] at hchkT
          simp at hchkT
      | some v =>
          rw [hb] at hchkT
          simp only at hchkT
          split at hchkT
          · rename_i hqv
            refine ⟨v, rfl, hqv, ?_, ?_, ?_, rfl, rfl, ?_⟩
            · rw [hsp]
              exact hfinal
            · rw [show (productAfterSale p it.size it.quantity).sizes
                  = sizesDecrement p.sizes it.size it.quantity from rfl,
                sizesLookup_decrement_self, hb]
              rfl
            · intro s hs
              rw [show (productAfterSale p it.size it.quantity).sizes
                  = sizesDecrement p.sizes it.size it.quantity from rfl,
                sizesLookup_decrement_other _ _ _ _ hs]
            · intro hnn kv hkv
              rcases mem_updateFirst _ _ _ _ hkv with hkv | ⟨y, hy, hkvy⟩
              · exact hnn kv hkv
              · have hyv : y.2 = v := by
                  have : sizesLookup p.sizes it.size = some y.2 := by
                    unfold sizesLookup
                    rw [hy]
                    rfl
                  rw [hb, Option.some.injEq] at this
                  exact this.symm
                subst hkvy
                have h2 : (0 : Int) ≤ y.2 - it.quantity := by omega
                exact h2
          · simp at hchkT
  · rfl

/-- C2 witness: the general statement applied to the spec scenario —
product 42 starts at `{"M": 5}`, the one cart item takes 3, and the
resulting product is exactly `productAfterSale`'s image with stock 2. -/
theorem paid_checkout_stock_conservation_witness :
    ∃ v, sizesLookup productScenario.sizes "M" = some v
      ∧ (3 : Int) ≤ v
      ∧ findProduct storeScenarioAfter.products 42
          = some (productAfterSale productScenario "M" 3)
      ∧ sizesLookup (productAfterSale productScenario "M" 3).sizes "M"
          = some (v - 3)
      ∧ (∀ s, s ≠ "M" →
          sizesLookup (productAfterSale productScenario "M" 3).sizes s
            = sizesLookup productScenario.sizes s)
      ∧ (productAfterSale productScenario "M" 3).stock
          = sizesSum (productAfterSale productScenario "M" 3).sizes
      ∧ (productAfterSale productScenario "M" 3).sold_count
          = productScenario.sold_count + 3
      ∧ ((∀ kv ∈ productScenario.sizes, 0 ≤ kv.2) →
          ∀ kv ∈ (productAfterSale productScenario "M" 3).sizes,
            0 ≤ kv.2) :=
  paid_checkout_stock_conservation.1 reqScenario 10 cfgDefault .delivered
    .delivered storeScenario (.ok "VV0001" "Order created successfully")
    storeScenarioAfter [⟨some 42, none, "M", 3, 100⟩]
    ⟨some 42, none, "M", 3, 100⟩ 42 productScenario rfl rfl rfl rfl
    (by decide) rfl

end VelvetVogue
